import Mathlib

set_option maxHeartbeats 1000000
set_option maxRecDepth 100000

/-!
Shallow embedding of the websocket hub of llamasearchai/llamachat
(internal/websocket: hub in src/unnamed/part_004, pumps in
src/internal/websocket/client.go).

Modelling conventions:
* Go client IDs (uuid strings) and user IDs (uuid.UUID) are both modelled
  as `Nat`; the uuid generator guarantees freshness, which theorems take as
  hypotheses where needed.
* A Go buffered channel `chan []byte` is a `Queue`: a capacity, a FIFO
  buffer of messages (payload bytes as `String`), and a closed flag.
* The hub goroutine (`Run`) processes Register/Unregister/Broadcast
  requests one at a time, so hub operations are plain state-to-state
  functions on `HubState`.
* `broadcastMessage`'s full-queue branch does `close(client.Send)` and then
  `h.Unregister <- client`.  `h.Unregister` is an unbuffered channel whose
  only receiver is the hub goroutine itself, which is currently inside
  `broadcastMessage`; the send can therefore never complete.  The model
  makes this observable as a `BHalt.deadlockAt` outcome carrying the state
  at the moment the goroutine blocks.  Similarly, a Go send on a closed
  channel panics, modelled as `BHalt.panicSendOnClosed`.
-/

/-- Model of a Go buffered channel `chan []byte` (a client's Send queue):
fixed capacity, FIFO buffer, closed flag. -/
structure Queue where
  cap : Nat
  buf : List String
  closed : Bool
  deriving DecidableEq, Repr

/-- Model of `Client` (client.go): connection ID, owning user ID, and the
outbound Send queue.  Socket, timestamps and display metadata play no role
in the claims and are omitted. -/
structure Client where
  id : Nat
  userId : Nat
  send : Queue
  deriving DecidableEq, Repr

/-- Model of the `Broadcast` request struct: originating client ID plus
message bytes. -/
structure Broadcast where
  clientID : Nat
  message : String
  deriving DecidableEq, Repr

/-- Association-list lookup, modelling Go map indexing `m[k]`. -/
def lookupA {α : Type} : List (Nat × α) → Nat → Option α
  | [], _ => none
  | (k', v) :: t, k => if k = k' then some v else lookupA t k

/-- Association-list insert, modelling Go map assignment `m[k] = v`:
replaces in place if the key is present, otherwise appends.  The list
order is the model's stand-in for Go's (unspecified) map iteration
order. -/
def insertA {α : Type} : List (Nat × α) → Nat → α → List (Nat × α)
  | [], k, v => [(k, v)]
  | (k', v') :: t, k, v =>
      if k = k' then (k, v) :: t else (k', v') :: insertA t k v

/-- Association-list erase, modelling Go `delete(m, k)`. -/
def eraseA {α : Type} : List (Nat × α) → Nat → List (Nat × α)
  | [], _ => []
  | (k', v) :: t, k => if k' = k then eraseA t k else (k', v) :: eraseA t k

/-- Keys of an association list. -/
def keysA {α : Type} (l : List (Nat × α)) : List Nat := l.map Prod.fst

/-- The hub's two membership structures: `clients` maps connection ID to
client (the client record carries its Send queue), `userClients` maps user
ID to a single connection ID. -/
structure HubState where
  clients : List (Nat × Client)
  userClients : List (Nat × Nat)
  deriving DecidableEq, Repr

/-- `NewHub()`: both maps empty. -/
def emptyHub : HubState := ⟨[], []⟩

/-- `NewClient` allocates `make(chan []byte, 256)`: capacity 256, empty,
open. -/
def newSendQueue : Queue := ⟨256, [], false⟩

/-- `notifyUserJoin` in the source is an empty stub (its body is a single
comment saying what an implementation would do), so the model is the
identity on the hub state. -/
def notifyUserJoin (h : HubState) (_c : Client) : HubState := h

/-- `notifyUserLeave` in the source is likewise an empty stub. -/
def notifyUserLeave (h : HubState) (_c : Client) : HubState := h

/-- `registerClient`: unconditionally inserts into both maps, then calls
the (stubbed) join notification.  There is no capacity check of any
kind. -/
def registerClient (h : HubState) (c : Client) : HubState :=
  notifyUserJoin
    { clients := insertA h.clients c.id c
      userClients := insertA h.userClients c.userId c.id } c

/-- `unregisterClient`: if the connection ID is a key of `clients`, delete
it from `clients`, delete the client's user ID from `userClients`
unconditionally, and close the client's Send channel (the closed channel
leaves the hub state together with its map entry); otherwise do nothing. -/
def unregisterClient (h : HubState) (c : Client) : HubState :=
  match lookupA h.clients c.id with
  | some _ =>
      notifyUserLeave
        { clients := eraseA h.clients c.id
          userClients := eraseA h.userClients c.userId } c
  | none => h

/-- Append one message to a client's Send queue (a successful
non-blocking channel send). -/
def enqSend (cl : Client) (m : String) : Client :=
  { cl with send := { cl.send with buf := cl.send.buf ++ [m] } }

/-- Close a client's Send queue (`close(client.Send)`). -/
def closeSend (cl : Client) : Client :=
  { cl with send := { cl.send with closed := true } }

/-- Outcomes on which the hub goroutine never returns from
`broadcastMessage`: blocking forever on `h.Unregister <- client` (the hub
goroutine is that channel's only receiver), or a runtime panic from
sending on a closed channel. -/
inductive BHalt where
  | deadlockAt (cid : Nat) : BHalt
  | panicSendOnClosed (cid : Nat) : BHalt
  deriving DecidableEq, Repr

/-- The `for id, client := range h.clients` loop of `broadcastMessage`:
skip the origin; otherwise attempt a `select`-with-`default` send.  A send
on a closed channel panics; a send with buffer room succeeds; a full
buffer takes the `default` branch, which closes the queue and then blocks
forever on `h.Unregister <- client`.  Returns the clients list as it
stands when the loop finishes or the goroutine halts, plus the halt event
if any. -/
def bcastLoop (origin : Nat) (m : String) :
    List (Nat × Client) → List (Nat × Client) × Option BHalt
  | [] => ([], none)
  | (i, cl) :: rest =>
      if i = origin then
        let r := bcastLoop origin m rest
        ((i, cl) :: r.1, r.2)
      else if cl.send.closed then
        ((i, cl) :: rest, some (BHalt.panicSendOnClosed i))
      else if cl.send.buf.length < cl.send.cap then
        let r := bcastLoop origin m rest
        ((i, enqSend cl m) :: r.1, r.2)
      else
        ((i, closeSend cl) :: rest, some (BHalt.deadlockAt i))

/-- `broadcastMessage`: run the fan-out loop over the clients map.  The
membership keys and the user index are never touched by fan-out. -/
def broadcastMessage (h : HubState) (b : Broadcast) :
    HubState × Option BHalt :=
  let r := bcastLoop b.clientID b.message h.clients
  ({ h with clients := r.1 }, r.2)

/-- Decoded wire envelope (`Message` in client.go): the `type` tag and the
raw bytes of the `payload` field.  `json.RawMessage` stores the payload
sub-document verbatim, so `payload` here is byte-identical to the
corresponding slice of the inbound frame.  The timestamp field plays no
role in any claim and is omitted. -/
structure Message where
  type : String
  payload : String
  deriving DecidableEq, Repr

/-- Effects of one inbound-pump dispatch step: requests submitted to the
hub's Broadcast channel, and error texts queued to the client's own Send
queue via `sendError`. -/
structure PumpEffects where
  toHub : List Broadcast
  selfSend : List String
  deriving DecidableEq, Repr

/-- `handleChatMessage`: forwards only `msg.Payload` (not the whole
envelope) to the hub, tagged with the sender's connection ID. -/
def handleChatMessage (c : Client) (payload : String) : PumpEffects :=
  ⟨[⟨c.id, payload⟩], []⟩

/-- `handleTypingEvent`: forwards the payload to the hub, tagged with the
sender's connection ID. -/
def handleTypingEvent (c : Client) (payload : String) : PumpEffects :=
  ⟨[⟨c.id, payload⟩], []⟩

/-- `handleReadReceipt` is an empty stub in the source: no hub dispatch,
no reply. -/
def handleReadReceipt (_c : Client) (_payload : String) : PumpEffects :=
  ⟨[], []⟩

/-- `processMessage`: `none` models a `json.Unmarshal` failure (replied to
with an error envelope); otherwise dispatch on the type tag exactly as the
source's switch does. -/
def processMessage (c : Client) (decoded : Option Message) : PumpEffects :=
  match decoded with
  | none => ⟨[], ["Invalid message format"]⟩
  | some m =>
      if m.type = "message" then handleChatMessage c m.payload
      else if m.type = "typing" then handleTypingEvent c m.payload
      else if m.type = "read_receipt" then handleReadReceipt c m.payload
      else ⟨[], ["Unknown message type"]⟩

/-- Outcome of `sendError`'s plain (unguarded) channel send
`c.Send <- data`. -/
inductive SendOutcome where
  | delivered (cl : Client) : SendOutcome
  | blocksFull : SendOutcome
  | panicClosed : SendOutcome
  deriving DecidableEq, Repr

/-- `sendError` ends in `c.Send <- data`, a plain blocking send: it
delivers when the buffer has room, waits indefinitely when the buffer is
full (no `select`/`default` guard), and panics if the channel is
closed. -/
def sendError (cl : Client) (data : String) : SendOutcome :=
  if cl.send.closed then SendOutcome.panicClosed
  else if cl.send.buf.length < cl.send.cap then
    SendOutcome.delivered (enqSend cl data)
  else SendOutcome.blocksFull

/-- A hub request of the two membership-changing kinds. -/
inductive HubOp where
  | reg (c : Client) : HubOp
  | unreg (c : Client) : HubOp
  deriving DecidableEq, Repr

/-- Process one membership request, as `Run`'s select loop does. -/
def applyOp (h : HubState) : HubOp → HubState
  | HubOp.reg c => registerClient h c
  | HubOp.unreg c => unregisterClient h c

/-- Process a sequence of membership requests in order. -/
def runOps (h : HubState) (ops : List HubOp) : HubState :=
  ops.foldl applyOp h

/-- One request is wellformed for the current state when it matches what
the surrounding program can actually submit: a Register carries a freshly
generated uuid connection ID (never a key of `clients`) for a user with no
live connection, and an Unregister carries either an absent connection or
exactly the registered client record. -/
def wfStepB (h : HubState) : HubOp → Bool
  | HubOp.reg c =>
      decide (lookupA h.clients c.id = none) &&
      decide (lookupA h.userClients c.userId = none)
  | HubOp.unreg c =>
      decide (lookupA h.clients c.id = none) ||
      decide (lookupA h.clients c.id = some c)

/-- A request sequence is wellformed when every request is wellformed for
the state produced by its predecessors. -/
def wfFromB (h : HubState) : List HubOp → Bool
  | [] => true
  | op :: rest => wfStepB h op && wfFromB (applyOp h op) rest

/-! ### Association-list lemmas -/

theorem lookupA_insertA {α : Type} (l : List (Nat × α)) (k k' : Nat) (v : α) :
    lookupA (insertA l k v) k' = if k' = k then some v else lookupA l k' := by
  induction l with
  | nil => simp [insertA, lookupA]
  | cons p t ih =>
      obtain ⟨k'', v''⟩ := p
      by_cases hk : k = k''
      · subst hk
        by_cases hk' : k' = k <;> simp [insertA, lookupA, hk']
      · by_cases hk' : k' = k''
        · subst hk'
          simp [insertA, lookupA, hk, Ne.symm hk]
        · simp [insertA, lookupA, hk, hk', ih]

theorem lookupA_eraseA {α : Type} (l : List (Nat × α)) (k k' : Nat) :
    lookupA (eraseA l k) k' = if k' = k then none else lookupA l k' := by
  induction l with
  | nil => simp [eraseA, lookupA]
  | cons p t ih =>
      obtain ⟨k'', v''⟩ := p
      by_cases hk : k'' = k
      · subst hk
        by_cases hk' : k' = k''
        · subst hk'
          simp [eraseA, lookupA, ih]
        · simp [eraseA, lookupA, hk', ih]
      · by_cases hk' : k' = k''
        · simp [eraseA, lookupA, hk, hk', fun h : k' = k => hk (hk'.symm.trans h)]
        · simp [eraseA, lookupA, hk, hk', ih]

theorem lookupA_mem {α : Type} (l : List (Nat × α)) (k : Nat) (v : α)
    (h : lookupA l k = some v) : (k, v) ∈ l := by
  induction l with
  | nil => simp [lookupA] at h
  | cons p t ih =>
      obtain ⟨k', v'⟩ := p
      by_cases hk : k = k'
      · subst hk
        simp [lookupA] at h
        simp [h]
      · simp [lookupA, hk] at h
        exact List.mem_cons_of_mem _ (ih h)

theorem mem_keysA_iff_lookupA {α : Type} (l : List (Nat × α)) (k : Nat) :
    k ∈ keysA l ↔ (lookupA l k).isSome := by
  induction l with
  | nil => simp [keysA, lookupA]
  | cons p t ih =>
      obtain ⟨k', v'⟩ := p
      by_cases hk : k = k'
      · subst hk
        simp [keysA, lookupA]
      · simp [keysA, lookupA, hk]
        simpa [keysA] using ih

theorem mem_lookupA_of_nodup {α : Type} (l : List (Nat × α)) (k : Nat)
    (v : α) (hnd : (keysA l).Nodup) (hm : (k, v) ∈ l) :
    lookupA l k = some v := by
  induction l with
  | nil => simp at hm
  | cons p t ih =>
      obtain ⟨k', v'⟩ := p
      rw [keysA, List.map_cons, List.nodup_cons] at hnd
      rcases List.mem_cons.mp hm with hh | ht
      · injection hh with h1 h2
        subst h1
        subst h2
        simp [lookupA]
      · by_cases hk : k = k'
        · subst hk
          exact absurd (List.mem_map_of_mem Prod.fst ht) hnd.1
        · simpa [lookupA, hk] using ih hnd.2 ht

theorem keysA_insertA_mem {α : Type} (l : List (Nat × α)) (k : Nat) (v : α)
    (h : k ∈ keysA l) : keysA (insertA l k v) = keysA l := by
  induction l with
  | nil => simp [keysA] at h
  | cons p t ih =>
      obtain ⟨k', v'⟩ := p
      by_cases hk : k = k'
      · subst hk
        simp [insertA, keysA]
      · have h' : k ∈ keysA t := by
          rw [keysA, List.map_cons] at h
          rcases List.mem_cons.mp h with h0 | h0
          · exact absurd h0 hk
          · exact h0
        simp only [insertA, if_neg hk, keysA, List.map_cons]
        have h3 := ih h'
        rw [keysA, keysA] at h3
        rw [h3]

theorem keysA_insertA_not_mem {α : Type} (l : List (Nat × α)) (k : Nat)
    (v : α) (h : k ∉ keysA l) : keysA (insertA l k v) = keysA l ++ [k] := by
  induction l with
  | nil => simp [insertA, keysA]
  | cons p t ih =>
      obtain ⟨k', v'⟩ := p
      have h1 : k ≠ k' := by
        intro he
        exact h (by simp [keysA, he])
      have h2 : k ∉ keysA t := by
        intro he
        refine h ?_
        rw [keysA, List.map_cons]
        exact List.mem_cons_of_mem _ he
      simp [insertA, keysA, h1]
      simpa [keysA] using ih h2

theorem keysA_eraseA_sublist {α : Type} (l : List (Nat × α)) (k : Nat) :
    (keysA (eraseA l k)).Sublist (keysA l) := by
  induction l with
  | nil => simp [eraseA, keysA]
  | cons p t ih =>
      obtain ⟨k', v'⟩ := p
      by_cases hk : k' = k
      · simpa [eraseA, keysA, hk] using ih.cons k'
      · simpa [eraseA, keysA, hk] using ih.cons₂ k'

theorem nodup_keysA_insertA {α : Type} (l : List (Nat × α)) (k : Nat)
    (v : α) (hnd : (keysA l).Nodup) : (keysA (insertA l k v)).Nodup := by
  by_cases hm : k ∈ keysA l
  · rw [keysA_insertA_mem l k v hm]
    exact hnd
  · rw [keysA_insertA_not_mem l k v hm]
    simpa [List.nodup_append] using ⟨hnd, fun h => hm h⟩

theorem nodup_keysA_eraseA {α : Type} (l : List (Nat × α)) (k : Nat)
    (hnd : (keysA l).Nodup) : (keysA (eraseA l k)).Nodup :=
  hnd.sublist (keysA_eraseA_sublist l k)

/-! ### Membership invariant machinery -/

/-- Inductive invariant tying the two membership structures together:
keys are duplicate-free, every stored client record is keyed by its own
connection ID and is pointed to by its user's index entry, and every index
entry points to a stored client of that user. -/
def hubInv (h : HubState) : Prop :=
  (keysA h.clients).Nodup ∧ (keysA h.userClients).Nodup ∧
  (∀ i cl, lookupA h.clients i = some cl →
      cl.id = i ∧ lookupA h.userClients cl.userId = some i) ∧
  (∀ u i, lookupA h.userClients u = some i →
      ∃ cl, lookupA h.clients i = some cl ∧ cl.userId = u)

theorem hubInv_empty : hubInv emptyHub := by
  refine ⟨by simp [emptyHub, keysA], by simp [emptyHub, keysA], ?_, ?_⟩
  · intro i cl hl
    simp [emptyHub, lookupA] at hl
  · intro u i hl
    simp [emptyHub, lookupA] at hl

theorem registerClient_clients (h : HubState) (c : Client) :
    (registerClient h c).clients = insertA h.clients c.id c := rfl

theorem registerClient_userClients (h : HubState) (c : Client) :
    (registerClient h c).userClients = insertA h.userClients c.userId c.id := rfl

theorem unregisterClient_absent (h : HubState) (c : Client)
    (hn : lookupA h.clients c.id = none) : unregisterClient h c = h := by
  simp only [unregisterClient, hn]

theorem unregisterClient_present (h : HubState) (c : Client) (cl : Client)
    (hs : lookupA h.clients c.id = some cl) :
    unregisterClient h c =
      { clients := eraseA h.clients c.id
        userClients := eraseA h.userClients c.userId } := by
  simp only [unregisterClient, hs, notifyUserLeave]

theorem hubInv_register (h : HubState) (c : Client) (hInv : hubInv h)
    (hid : lookupA h.clients c.id = none)
    (hus : lookupA h.userClients c.userId = none) :
    hubInv (registerClient h c) := by
  obtain ⟨hnd1, hnd2, hinv3, hinv4⟩ := hInv
  refine ⟨?_, ?_, ?_, ?_⟩
  · rw [registerClient_clients]
    exact nodup_keysA_insertA _ _ _ hnd1
  · rw [registerClient_userClients]
    exact nodup_keysA_insertA _ _ _ hnd2
  · intro i cl hl
    rw [registerClient_clients, lookupA_insertA] at hl
    rw [registerClient_userClients]
    by_cases hi : i = c.id
    · rw [if_pos hi] at hl
      injection hl with hl
      subst hl
      refine ⟨hi.symm, ?_⟩
      rw [lookupA_insertA, if_pos rfl, hi]
    · rw [if_neg hi] at hl
      obtain ⟨hcl1, hcl2⟩ := hinv3 i cl hl
      refine ⟨hcl1, ?_⟩
      have hu : cl.userId ≠ c.userId := by
        intro he
        rw [he, hus] at hcl2
        exact Option.noConfusion hcl2
      rw [lookupA_insertA, if_neg hu]
      exact hcl2
  · intro u i hl
    rw [registerClient_userClients, lookupA_insertA] at hl
    rw [registerClient_clients]
    by_cases hu : u = c.userId
    · rw [if_pos hu] at hl
      injection hl with hl
      subst hl
      refine ⟨c, ?_, hu.symm⟩
      rw [lookupA_insertA, if_pos rfl]
    · rw [if_neg hu] at hl
      obtain ⟨cl, hcl1, hcl2⟩ := hinv4 u i hl
      have hi : i ≠ c.id := by
        intro he
        rw [he, hid] at hcl1
        exact Option.noConfusion hcl1
      refine ⟨cl, ?_, hcl2⟩
      rw [lookupA_insertA, if_neg hi]
      exact hcl1

theorem hubInv_unregister (h : HubState) (c : Client) (hInv : hubInv h)
    (hwf : lookupA h.clients c.id = none ∨ lookupA h.clients c.id = some c) :
    hubInv (unregisterClient h c) := by
  obtain ⟨hnd1, hnd2, hinv3, hinv4⟩ := hInv
  rcases hwf with hnone | hsome
  · rw [unregisterClient_absent h c hnone]
    exact ⟨hnd1, hnd2, hinv3, hinv4⟩
  · rw [unregisterClient_present h c c hsome]
    refine ⟨nodup_keysA_eraseA _ _ hnd1, nodup_keysA_eraseA _ _ hnd2, ?_, ?_⟩
    · intro i cl hl
      simp only at hl ⊢
      rw [lookupA_eraseA] at hl
      by_cases hi : i = c.id
      · rw [if_pos hi] at hl
        exact Option.noConfusion hl
      · rw [if_neg hi] at hl
        obtain ⟨hcl1, hcl2⟩ := hinv3 i cl hl
        refine ⟨hcl1, ?_⟩
        have hu : cl.userId ≠ c.userId := by
          intro he
          obtain ⟨hc1, hc2⟩ := hinv3 c.id c hsome
          rw [he, hc2] at hcl2
          injection hcl2 with hcl2
          exact hi hcl2.symm
        rw [lookupA_eraseA, if_neg hu]
        exact hcl2
    · intro u i hl
      simp only at hl ⊢
      rw [lookupA_eraseA] at hl
      by_cases hu : u = c.userId
      · rw [if_pos hu] at hl
        exact Option.noConfusion hl
      · rw [if_neg hu] at hl
        obtain ⟨cl, hcl1, hcl2⟩ := hinv4 u i hl
        have hi : i ≠ c.id := by
          intro he
          rw [he, hsome] at hcl1
          injection hcl1 with hcl1
          rw [← hcl1] at hcl2
          exact hu hcl2.symm
        refine ⟨cl, ?_, hcl2⟩
        rw [lookupA_eraseA, if_neg hi]
        exact hcl1

theorem hubInv_applyOp (h : HubState) (op : HubOp) (hInv : hubInv h)
    (hwf : wfStepB h op = true) : hubInv (applyOp h op) := by
  cases op with
  | reg c =>
      rw [wfStepB, Bool.and_eq_true, decide_eq_true_eq, decide_eq_true_eq] at hwf
      exact hubInv_register h c hInv hwf.1 hwf.2
  | unreg c =>
      rw [wfStepB, Bool.or_eq_true, decide_eq_true_eq, decide_eq_true_eq] at hwf
      exact hubInv_unregister h c hInv hwf

theorem hubInv_runOps (ops : List HubOp) (h : HubState) (hInv : hubInv h)
    (hwf : wfFromB h ops = true) : hubInv (runOps h ops) := by
  induction ops generalizing h with
  | nil => exact hInv
  | cons op rest ih =>
      rw [wfFromB, Bool.and_eq_true] at hwf
      exact ih (applyOp h op) (hubInv_applyOp h op hInv hwf.1) hwf.2

theorem wfFromB_append (h : HubState) (l₁ l₂ : List HubOp)
    (hwf : wfFromB h (l₁ ++ l₂) = true) : wfFromB h l₁ = true := by
  induction l₁ generalizing h with
  | nil => rfl
  | cons op rest ih =>
      rw [List.cons_append, wfFromB, Bool.and_eq_true] at hwf
      rw [wfFromB, Bool.and_eq_true]
      exact ⟨hwf.1, ih (applyOp h op) hwf.2⟩

theorem consistent_of_hubInv (h : HubState) (hInv : hubInv h) (i : Nat) :
    i ∈ keysA h.clients ↔ i ∈ h.userClients.map Prod.snd := by
  obtain ⟨hnd1, hnd2, hinv3, hinv4⟩ := hInv
  constructor
  · intro hm
    rw [mem_keysA_iff_lookupA] at hm
    obtain ⟨cl, hcl⟩ := Option.isSome_iff_exists.mp hm
    obtain ⟨_, h2⟩ := hinv3 i cl hcl
    have := lookupA_mem _ _ _ h2
    exact List.mem_map_of_mem Prod.snd this
  · intro hm
    obtain ⟨⟨u, j⟩, hmem, hj⟩ := List.mem_map.mp hm
    have hj' : j = i := hj
    have hl := mem_lookupA_of_nodup _ _ _ hnd2 hmem
    obtain ⟨cl, hcl, _⟩ := hinv4 u j hl
    rw [hj'] at hcl
    rw [mem_keysA_iff_lookupA, hcl]
    rfl

/-! ### Fan-out lemmas -/

/-- The per-entry effect of a completed fan-out pass: the origin entry is
untouched, every other entry has the message appended to its queue. -/
def bcastUpdate (origin : Nat) (m : String) (p : Nat × Client) : Nat × Client :=
  (p.1, if p.1 = origin then p.2 else enqSend p.2 m)

theorem bcastLoop_ok (origin : Nat) (m : String) (l : List (Nat × Client))
    (hok : ∀ p ∈ l, p.1 ≠ origin →
      p.2.send.closed = false ∧ p.2.send.buf.length < p.2.send.cap) :
    bcastLoop origin m l = (l.map (bcastUpdate origin m), none) := by
  induction l with
  | nil => rfl
  | cons p t ih =>
      obtain ⟨i, cl⟩ := p
      have ht := ih (fun q hq hq' => hok q (List.mem_cons_of_mem _ hq) hq')
      by_cases hi : i = origin
      · simp [bcastLoop, hi, ht, bcastUpdate]
      · obtain ⟨hc, hlen⟩ := hok (i, cl) (List.mem_cons_self _ _) hi
        simp only [] at hc hlen
        simp [bcastLoop, hi, hc, hlen, ht, bcastUpdate]

theorem lookupA_bcastUpdate (l : List (Nat × Client)) (a k : Nat)
    (m : String) :
    lookupA (l.map (bcastUpdate a m)) k =
      (lookupA l k).map (fun cl => if k = a then cl else enqSend cl m) := by
  induction l with
  | nil => simp [lookupA]
  | cons p t ih =>
      obtain ⟨i, cl⟩ := p
      by_cases hk : k = i
      · subst hk
        simp [lookupA, bcastUpdate]
      · simp [lookupA, bcastUpdate, hk, ih]

theorem keysA_map_bcastUpdate (l : List (Nat × Client)) (a : Nat)
    (m : String) : keysA (l.map (bcastUpdate a m)) = keysA l := by
  rw [keysA, keysA, List.map_map]
  rfl

theorem broadcastMessage_ok (h : HubState) (a : Nat) (m : String)
    (hok : ∀ p ∈ h.clients, p.1 ≠ a →
      p.2.send.closed = false ∧ p.2.send.buf.length < p.2.send.cap) :
    broadcastMessage h ⟨a, m⟩ =
      ({ clients := h.clients.map (bcastUpdate a m)
         userClients := h.userClients }, none) := by
  have h1 := bcastLoop_ok a m h.clients hok
  simp [broadcastMessage, h1]

/-! ### Shared helper lemmas about registration -/

theorem lookupA_registerClient_self (h : HubState) (c : Client) :
    lookupA (registerClient h c).clients c.id = some c := by
  rw [registerClient_clients, lookupA_insertA, if_pos rfl]

theorem lookupA_registerClient_user_self (h : HubState) (c : Client) :
    lookupA (registerClient h c).userClients c.userId = some c.id := by
  rw [registerClient_userClients, lookupA_insertA, if_pos rfl]

/-! ### Claim C1 -/

/-- Counterexample to claim C1 as stated: when user 7 registers a second
live connection (ID 2) while connection 1 is still registered, the
user-index entry for user 7 is overwritten, so connection ID 1 is still a
key of the primary clients map but is no longer the value of any
user-index entry.  The two membership structures are not mutually
consistent after that Register operation. -/
theorem c1_counterexample :
    1 ∈ keysA (runOps emptyHub
        [HubOp.reg ⟨1, 7, newSendQueue⟩, HubOp.reg ⟨2, 7, newSendQueue⟩]).clients ∧
    1 ∉ (runOps emptyHub
        [HubOp.reg ⟨1, 7, newSendQueue⟩,
         HubOp.reg ⟨2, 7, newSendQueue⟩]).userClients.map Prod.snd := by
  decide

/-- Claim C1, amended: for every wellformed sequence of Register and
Unregister operations from the empty hub — each Register carrying a fresh
connection ID for a user with no currently registered connection (at most
one live connection per user), each Unregister carrying an absent or the
exactly-registered connection — after every operation (that is, after any
wellformed prefix) a connection ID is a key of the primary clients map if
and only if it appears as the value of some user-index entry. -/
theorem c1_membership_consistency (ops rest : List HubOp)
    (hwf : wfFromB emptyHub (ops ++ rest) = true) (i : Nat) :
    i ∈ keysA (runOps emptyHub ops).clients ↔
      i ∈ (runOps emptyHub ops).userClients.map Prod.snd :=
  consistent_of_hubInv _
    (hubInv_runOps ops emptyHub hubInv_empty (wfFromB_append _ _ _ hwf)) i

/-- Witness for C1's amended theorem: a concrete wellformed five-operation
run (two users join, one leaves, a third connection of the first user
joins afresh), checked after its fourth operation. -/
theorem c1_membership_consistency_witness :
    wfFromB emptyHub
      ([HubOp.reg ⟨1, 10, newSendQueue⟩, HubOp.reg ⟨2, 20, newSendQueue⟩,
        HubOp.unreg ⟨1, 10, newSendQueue⟩, HubOp.reg ⟨3, 10, newSendQueue⟩] ++
       [HubOp.unreg ⟨2, 20, newSendQueue⟩]) = true ∧
    ∀ i, i ∈ keysA (runOps emptyHub
        [HubOp.reg ⟨1, 10, newSendQueue⟩, HubOp.reg ⟨2, 20, newSendQueue⟩,
         HubOp.unreg ⟨1, 10, newSendQueue⟩,
         HubOp.reg ⟨3, 10, newSendQueue⟩]).clients ↔
      i ∈ (runOps emptyHub
        [HubOp.reg ⟨1, 10, newSendQueue⟩, HubOp.reg ⟨2, 20, newSendQueue⟩,
         HubOp.unreg ⟨1, 10, newSendQueue⟩,
         HubOp.reg ⟨3, 10, newSendQueue⟩]).userClients.map Prod.snd :=
  ⟨by decide, fun i => c1_membership_consistency
    [HubOp.reg ⟨1, 10, newSendQueue⟩, HubOp.reg ⟨2, 20, newSendQueue⟩,
     HubOp.unreg ⟨1, 10, newSendQueue⟩, HubOp.reg ⟨3, 10, newSendQueue⟩]
    [HubOp.unreg ⟨2, 20, newSendQueue⟩] (by decide) i⟩

/-! ### Claim C4 -/

/-- Claim C4, formalised as stated by the spec: there is some hard
connection-count ceiling `M` such that once the hub holds at least `M`
connections, a Register request is rejected (the new connection is not
inserted into the clients map). -/
def connCeilingClaim : Prop :=
  ∃ M : Nat, ∀ (h : HubState) (c : Client),
    M ≤ h.clients.length →
      lookupA (registerClient h c).clients c.id ≠ some c

/-- A hub literal with `n` registered connections (IDs and users
`0, …, n−1`). -/
def mkBigHub (n : Nat) : HubState :=
  { clients := (List.range n).map (fun j => (j, ⟨j, j, newSendQueue⟩))
    userClients := (List.range n).map (fun j => (j, j)) }

theorem mkBigHub_length (n : Nat) : (mkBigHub n).clients.length = n := by
  simp [mkBigHub]

/-- Counterexample to claim C4: `registerClient` contains no
connection-count check of any kind, so no ceiling `M` exists — for every
candidate `M`, registering a fresh connection into a hub that already
holds `M` connections still inserts it. -/
theorem c4_counterexample : ¬ connCeilingClaim := by
  rintro ⟨M, hM⟩
  refine hM (mkBigHub M) ⟨M, M, newSendQueue⟩ ?_ ?_
  · rw [mkBigHub_length]
  · exact lookupA_registerClient_self (mkBigHub M) ⟨M, M, newSendQueue⟩

/-- Claim C4, amended: Register is never rejected.  For every hub state,
whatever the current connection count, processing a Register request
inserts the connection into both membership structures. -/
theorem c4_register_never_rejected (h : HubState) (c : Client) :
    lookupA (registerClient h c).clients c.id = some c ∧
    lookupA (registerClient h c).userClients c.userId = some c.id :=
  ⟨lookupA_registerClient_self h c, lookupA_registerClient_user_self h c⟩

/-! ### Claim C9 -/

/-- Claim C9: Unregister is idempotent.  Unregistering a connection whose
ID is not a key of the clients map leaves the hub state entirely
unchanged (the code has no error path at all), and unregistering the same
connection a second time is always a no-op. -/
theorem c9_unregister_idempotent (h : HubState) (c : Client) :
    (lookupA h.clients c.id = none → unregisterClient h c = h) ∧
    unregisterClient (unregisterClient h c) c = unregisterClient h c := by
  constructor
  · intro hn
    exact unregisterClient_absent h c hn
  · cases hl : lookupA h.clients c.id with
    | none => rw [unregisterClient_absent h c hl, unregisterClient_absent h c hl]
    | some cl =>
        rw [unregisterClient_present h c cl hl]
        refine unregisterClient_absent _ c ?_
        show lookupA (eraseA h.clients c.id) c.id = none
        rw [lookupA_eraseA, if_pos rfl]

/-- Witness for C9 at a concrete input: a hub holding connection 1 and a
request to unregister the absent connection 5, twice. -/
theorem c9_unregister_idempotent_witness :
    lookupA (HubState.mk [(1, ⟨1, 10, newSendQueue⟩)] [(10, 1)]).clients 5 = none ∧
    unregisterClient (HubState.mk [(1, ⟨1, 10, newSendQueue⟩)] [(10, 1)])
        ⟨5, 50, newSendQueue⟩ =
      HubState.mk [(1, ⟨1, 10, newSendQueue⟩)] [(10, 1)] ∧
    unregisterClient (unregisterClient
        (HubState.mk [(1, ⟨1, 10, newSendQueue⟩)] [(10, 1)]) ⟨5, 50, newSendQueue⟩)
        ⟨5, 50, newSendQueue⟩ =
      unregisterClient (HubState.mk [(1, ⟨1, 10, newSendQueue⟩)] [(10, 1)])
        ⟨5, 50, newSendQueue⟩ :=
  ⟨by decide,
   (c9_unregister_idempotent _ ⟨5, 50, newSendQueue⟩).1 (by decide),
   (c9_unregister_idempotent _ ⟨5, 50, newSendQueue⟩).2⟩

/-! ### Claim C10 -/

/-- Claim C10: with two same-user connections registered (`c₂` after
`c₁`), the user-index entry holds `c₂`'s ID; an Unregister of `c₁` then
deletes that user-index entry unconditionally, so the user disappears
from the user-index even though `c₂` is still present in the clients
map. -/
theorem c10_unregister_unconditional_user_delete (h : HubState)
    (c₁ c₂ : Client) (hu : c₁.userId = c₂.userId) (hid : c₁.id ≠ c₂.id) :
    lookupA (registerClient (registerClient h c₁) c₂).userClients c₁.userId =
      some c₂.id ∧
    lookupA (unregisterClient (registerClient (registerClient h c₁) c₂) c₁).userClients
      c₁.userId = none ∧
    lookupA (unregisterClient (registerClient (registerClient h c₁) c₂) c₁).clients
      c₂.id = some c₂ := by
  have hover : lookupA (registerClient (registerClient h c₁) c₂).userClients
      c₁.userId = some c₂.id := by
    rw [hu]
    exact lookupA_registerClient_user_self _ c₂
  have hc1 : lookupA (registerClient (registerClient h c₁) c₂).clients c₁.id =
      some c₁ := by
    rw [registerClient_clients, lookupA_insertA, if_neg hid]
    exact lookupA_registerClient_self h c₁
  refine ⟨hover, ?_, ?_⟩
  · rw [unregisterClient_present _ c₁ c₁ hc1]
    show lookupA (eraseA (registerClient (registerClient h c₁) c₂).userClients
      c₁.userId) c₁.userId = none
    rw [lookupA_eraseA, if_pos rfl]
  · rw [unregisterClient_present _ c₁ c₁ hc1]
    show lookupA (eraseA (registerClient (registerClient h c₁) c₂).clients
      c₁.id) c₂.id = some c₂
    rw [lookupA_eraseA, if_neg (Ne.symm hid)]
    exact lookupA_registerClient_self _ c₂

/-- Witness for C10 at a concrete input: user 7's connections 1 and 2. -/
theorem c10_unregister_unconditional_user_delete_witness :
    (Client.mk 1 7 newSendQueue).userId = (Client.mk 2 7 newSendQueue).userId ∧
    (Client.mk 1 7 newSendQueue).id ≠ (Client.mk 2 7 newSendQueue).id ∧
    (lookupA (registerClient (registerClient emptyHub (Client.mk 1 7 newSendQueue))
        (Client.mk 2 7 newSendQueue)).userClients 7 = some 2 ∧
     lookupA (unregisterClient (registerClient (registerClient emptyHub
        (Client.mk 1 7 newSendQueue)) (Client.mk 2 7 newSendQueue))
        (Client.mk 1 7 newSendQueue)).userClients 7 = none ∧
     lookupA (unregisterClient (registerClient (registerClient emptyHub
        (Client.mk 1 7 newSendQueue)) (Client.mk 2 7 newSendQueue))
        (Client.mk 1 7 newSendQueue)).clients 2 = some (Client.mk 2 7 newSendQueue)) :=
  ⟨rfl, by decide,
   c10_unregister_unconditional_user_delete emptyHub
     (Client.mk 1 7 newSendQueue) (Client.mk 2 7 newSendQueue) rfl (by decide)⟩

/-! ### Claim C3 -/

/-- Claim C3: with origin connection `a` registered and every other
registered connection's queue open with room for two more entries (the
no-overflow assumption), two successive Broadcasts from `a` complete
without halting, leave both membership structures' keys unchanged, and
append exactly `[m₁, m₂]` — in submission order — to the queue of every
registered connection other than `a`, while `a`'s own entry is untouched
(no echo to sender): exactly the N−1 other connections receive. -/
theorem c3_broadcast_n_minus_one_in_order (h : HubState) (a : Nat)
    (m₁ m₂ : String) (_ha : (lookupA h.clients a).isSome)
    (hok : ∀ p ∈ h.clients, p.1 ≠ a →
      p.2.send.closed = false ∧ p.2.send.buf.length + 2 ≤ p.2.send.cap) :
    (broadcastMessage h ⟨a, m₁⟩).2 = none ∧
    (broadcastMessage (broadcastMessage h ⟨a, m₁⟩).1 ⟨a, m₂⟩).2 = none ∧
    (broadcastMessage (broadcastMessage h ⟨a, m₁⟩).1 ⟨a, m₂⟩).1.userClients =
      h.userClients ∧
    keysA (broadcastMessage (broadcastMessage h ⟨a, m₁⟩).1 ⟨a, m₂⟩).1.clients =
      keysA h.clients ∧
    ∀ i cl, lookupA h.clients i = some cl →
      lookupA (broadcastMessage (broadcastMessage h ⟨a, m₁⟩).1 ⟨a, m₂⟩).1.clients i =
        some (if i = a then cl else enqSend (enqSend cl m₁) m₂) := by
  have hok1 : ∀ p ∈ h.clients, p.1 ≠ a →
      p.2.send.closed = false ∧ p.2.send.buf.length < p.2.send.cap := by
    intro p hp hne
    obtain ⟨h1, h2⟩ := hok p hp hne
    exact ⟨h1, by omega⟩
  have e1 := broadcastMessage_ok h a m₁ hok1
  have e1fst : (broadcastMessage h ⟨a, m₁⟩).1 =
      HubState.mk (h.clients.map (bcastUpdate a m₁)) h.userClients := by
    rw [e1]
  have e1snd : (broadcastMessage h ⟨a, m₁⟩).2 = none := by
    rw [e1]
  have hok2 : ∀ p ∈ h.clients.map (bcastUpdate a m₁), p.1 ≠ a →
      p.2.send.closed = false ∧ p.2.send.buf.length < p.2.send.cap := by
    intro p hp hne
    obtain ⟨q, hq, rfl⟩ := List.mem_map.mp hp
    have hqa : q.1 ≠ a := by simpa [bcastUpdate] using hne
    obtain ⟨hc, hl⟩ := hok q hq hqa
    constructor
    · simp [bcastUpdate, hqa, enqSend, hc]
    · simp [bcastUpdate, hqa, enqSend]
      omega
  have e2 := broadcastMessage_ok
    (HubState.mk (h.clients.map (bcastUpdate a m₁)) h.userClients) a m₂ hok2
  have e2fst : (broadcastMessage (broadcastMessage h ⟨a, m₁⟩).1 ⟨a, m₂⟩).1 =
      HubState.mk ((h.clients.map (bcastUpdate a m₁)).map (bcastUpdate a m₂))
        h.userClients := by
    rw [e1fst, e2]
  have e2snd : (broadcastMessage (broadcastMessage h ⟨a, m₁⟩).1 ⟨a, m₂⟩).2 = none := by
    rw [e1fst, e2]
  refine ⟨e1snd, e2snd, ?_, ?_, ?_⟩
  · rw [e2fst]
  · rw [e2fst]
    show keysA ((h.clients.map (bcastUpdate a m₁)).map (bcastUpdate a m₂)) =
      keysA h.clients
    rw [keysA_map_bcastUpdate, keysA_map_bcastUpdate]
  · intro i cl hcl
    rw [e2fst]
    show lookupA ((h.clients.map (bcastUpdate a m₁)).map (bcastUpdate a m₂)) i = _
    rw [lookupA_bcastUpdate, lookupA_bcastUpdate, hcl]
    by_cases hia : i = a
    · simp [hia]
    · simp [hia]

/-- A concrete hub for the C3 witness: three open, empty, capacity-256
queues. -/
def c3Hub : HubState :=
  HubState.mk
    [(1, ⟨1, 10, newSendQueue⟩), (2, ⟨2, 20, newSendQueue⟩),
     (3, ⟨3, 30, newSendQueue⟩)]
    [(10, 1), (20, 2), (30, 3)]

/-- Witness for C3 at a concrete input: three registered connections,
origin 1, broadcasts of "m1" then "m2". -/
theorem c3_broadcast_n_minus_one_in_order_witness :
    (lookupA c3Hub.clients 1).isSome ∧
    (∀ p ∈ c3Hub.clients, p.1 ≠ 1 →
      p.2.send.closed = false ∧ p.2.send.buf.length + 2 ≤ p.2.send.cap) ∧
    ∀ i cl, lookupA c3Hub.clients i = some cl →
      lookupA (broadcastMessage (broadcastMessage c3Hub ⟨1, "m1"⟩).1
        ⟨1, "m2"⟩).1.clients i =
        some (if i = 1 then cl else enqSend (enqSend cl "m1") "m2") :=
  ⟨by decide, by decide,
   (c3_broadcast_n_minus_one_in_order c3Hub 1 "m1" "m2"
     (by decide) (by decide)).2.2.2.2⟩

/-! ### Claim C5 -/

/-- Counterexample to claim C5 as stated: `broadcastMessage` never checks
whether the origin connection is registered.  Origin 99 is not a key of
the clients map, yet the broadcast is not dropped: connection 2's
outbound queue receives the message and the hub state changes. -/
theorem c5_counterexample :
    lookupA (HubState.mk [(2, ⟨2, 20, newSendQueue⟩)] [(20, 2)]).clients 99 =
      none ∧
    (broadcastMessage (HubState.mk [(2, ⟨2, 20, newSendQueue⟩)] [(20, 2)])
        ⟨99, "m"⟩).2 = none ∧
    lookupA (broadcastMessage (HubState.mk [(2, ⟨2, 20, newSendQueue⟩)]
        [(20, 2)]) ⟨99, "m"⟩).1.clients 2 =
      some ⟨2, 20, ⟨256, ["m"], false⟩⟩ ∧
    (broadcastMessage (HubState.mk [(2, ⟨2, 20, newSendQueue⟩)] [(20, 2)])
        ⟨99, "m"⟩).1 ≠
      HubState.mk [(2, ⟨2, 20, newSendQueue⟩)] [(20, 2)] := by
  decide

/-- Claim C5, amended: a Broadcast whose origin connection ID is not
registered is not dropped — it is fanned out to every registered
connection (there is no origin check), though the membership keys and the
user index are unchanged.  Stated under the no-overflow assumption. -/
theorem c5_unregistered_origin_delivers_to_all (h : HubState) (a : Nat)
    (m : String) (ha : lookupA h.clients a = none)
    (hok : ∀ p ∈ h.clients,
      p.2.send.closed = false ∧ p.2.send.buf.length < p.2.send.cap) :
    (broadcastMessage h ⟨a, m⟩).2 = none ∧
    (broadcastMessage h ⟨a, m⟩).1.userClients = h.userClients ∧
    keysA (broadcastMessage h ⟨a, m⟩).1.clients = keysA h.clients ∧
    ∀ i cl, lookupA h.clients i = some cl →
      lookupA (broadcastMessage h ⟨a, m⟩).1.clients i = some (enqSend cl m) := by
  have e := broadcastMessage_ok h a m (fun p hp _ => hok p hp)
  have efst : (broadcastMessage h ⟨a, m⟩).1 =
      HubState.mk (h.clients.map (bcastUpdate a m)) h.userClients := by
    rw [e]
  have esnd : (broadcastMessage h ⟨a, m⟩).2 = none := by
    rw [e]
  refine ⟨esnd, ?_, ?_, ?_⟩
  · rw [efst]
  · rw [efst]
    show keysA (h.clients.map (bcastUpdate a m)) = keysA h.clients
    rw [keysA_map_bcastUpdate]
  · intro i cl hcl
    have hia : i ≠ a := by
      intro he
      rw [he, ha] at hcl
      exact Option.noConfusion hcl
    rw [efst]
    show lookupA (h.clients.map (bcastUpdate a m)) i = _
    rw [lookupA_bcastUpdate, hcl]
    simp [hia]

/-- Witness for C5's amended theorem at a concrete input: origin 99 is
unregistered; both registered connections receive the message. -/
theorem c5_unregistered_origin_delivers_to_all_witness :
    lookupA (HubState.mk [(2, ⟨2, 20, newSendQueue⟩), (3, ⟨3, 30, newSendQueue⟩)]
        [(20, 2), (30, 3)]).clients 99 = none ∧
    (∀ p ∈ (HubState.mk [(2, ⟨2, 20, newSendQueue⟩), (3, ⟨3, 30, newSendQueue⟩)]
        [(20, 2), (30, 3)]).clients,
      p.2.send.closed = false ∧ p.2.send.buf.length < p.2.send.cap) ∧
    ∀ i cl, lookupA (HubState.mk [(2, ⟨2, 20, newSendQueue⟩),
        (3, ⟨3, 30, newSendQueue⟩)] [(20, 2), (30, 3)]).clients i = some cl →
      lookupA (broadcastMessage (HubState.mk [(2, ⟨2, 20, newSendQueue⟩),
        (3, ⟨3, 30, newSendQueue⟩)] [(20, 2), (30, 3)]) ⟨99, "z"⟩).1.clients i =
        some (enqSend cl "z") :=
  ⟨by decide, by decide,
   (c5_unregistered_origin_delivers_to_all _ 99 "z" (by decide) (by decide)).2.2.2⟩

/-! ### Claim C6 -/

/-- Counterexample to claim C6: connection A (ID 1, user 10) is
registered with an empty outbound queue; connection B (ID 2, user 20, a
different user) registers.  A's entry — including its queue, still with
the empty buffer — is unchanged: A receives zero envelopes, not exactly
one `user_join` envelope, because `notifyUserJoin` is an empty stub. -/
theorem c6_counterexample :
    lookupA (registerClient
        (HubState.mk [(1, ⟨1, 10, newSendQueue⟩)] [(10, 1)])
        ⟨2, 20, newSendQueue⟩).clients 1 =
      some ⟨1, 10, ⟨256, [], false⟩⟩ := by
  decide

/-- Claim C6, amended: processing a Register request sends nothing to any
existing connection — every entry of the clients map other than the newly
registered ID (in particular its outbound queue) is exactly as before,
since the presence-join notification is an unimplemented stub. -/
theorem c6_register_enqueues_no_envelope (h : HubState) (c : Client)
    (i : Nat) (hne : i ≠ c.id) :
    lookupA (registerClient h c).clients i = lookupA h.clients i := by
  rw [registerClient_clients, lookupA_insertA, if_neg hne]

/-- Witness for C6's amended theorem at a concrete input. -/
theorem c6_register_enqueues_no_envelope_witness :
    (1 : Nat) ≠ (Client.mk 2 20 newSendQueue).id ∧
    lookupA (registerClient (HubState.mk [(1, ⟨1, 10, newSendQueue⟩)]
        [(10, 1)]) (Client.mk 2 20 newSendQueue)).clients 1 =
      lookupA (HubState.mk [(1, ⟨1, 10, newSendQueue⟩)] [(10, 1)]).clients 1 :=
  ⟨by decide,
   c6_register_enqueues_no_envelope _ (Client.mk 2 20 newSendQueue) 1 (by decide)⟩

/-! ### Claim C7 -/

/-- The inbound frame of the C7 scenario, byte for byte. -/
def frameHi : String :=
  "\x7b\"type\":\"message\",\"payload\":\x7b\"text\":\"hi\"\x7d\x7d"

/-- The bytes of the frame's `payload` field.  `json.Unmarshal` into
`Message` stores exactly these bytes in the `json.RawMessage` payload. -/
def payloadHi : String := "\x7b\"text\":\"hi\"\x7d"

/-- The decoded form of `frameHi` (the image of `json.Unmarshal`). -/
def decodedHi : Message := ⟨"message", payloadHi⟩

/-- Counterexample to claim C7 as stated: A (ID 1) sends the frame; the
dispatch forwards only the payload bytes, so B's outbound queue receives
`payloadHi` — which is not the envelope `frameHi` — rather than the
envelope verbatim. -/
theorem c7_counterexample :
    processMessage (Client.mk 1 10 newSendQueue) (some decodedHi) =
      PumpEffects.mk [Broadcast.mk 1 payloadHi] [] ∧
    lookupA (broadcastMessage
        (HubState.mk [(1, ⟨1, 10, newSendQueue⟩), (2, ⟨2, 20, newSendQueue⟩)]
          [(10, 1), (20, 2)])
        (Broadcast.mk 1 payloadHi)).1.clients 2 =
      some ⟨2, 20, ⟨256, [payloadHi], false⟩⟩ ∧
    payloadHi ≠ frameHi := by
  decide

/-- Claim C7, amended: when registered A's inbound pump processes a
decoded chat-message envelope, the dispatch carries exactly the payload
bytes tagged with A's connection ID; the broadcast then appends those
payload bytes (byte-identical, but not the enclosing envelope) to every
other registered connection's queue — here recipient `b` — while A's own
entry is unchanged (no echo to sender). -/
theorem c7_payload_delivered_no_echo (h : HubState) (cA : Client) (b : Nat)
    (cB : Client) (pl : String)
    (hA : lookupA h.clients cA.id = some cA)
    (hB : lookupA h.clients b = some cB) (hne : b ≠ cA.id)
    (hok : ∀ p ∈ h.clients, p.1 ≠ cA.id →
      p.2.send.closed = false ∧ p.2.send.buf.length < p.2.send.cap) :
    processMessage cA (some (Message.mk "message" pl)) =
      PumpEffects.mk [Broadcast.mk cA.id pl] [] ∧
    (broadcastMessage h (Broadcast.mk cA.id pl)).2 = none ∧
    lookupA (broadcastMessage h (Broadcast.mk cA.id pl)).1.clients b =
      some (enqSend cB pl) ∧
    lookupA (broadcastMessage h (Broadcast.mk cA.id pl)).1.clients cA.id =
      some cA := by
  have e := broadcastMessage_ok h cA.id pl hok
  have efst : (broadcastMessage h (Broadcast.mk cA.id pl)).1 =
      HubState.mk (h.clients.map (bcastUpdate cA.id pl)) h.userClients := by
    rw [e]
  refine ⟨by simp [processMessage, handleChatMessage], by rw [e], ?_, ?_⟩
  · rw [efst]
    show lookupA (h.clients.map (bcastUpdate cA.id pl)) b = _
    rw [lookupA_bcastUpdate, hB]
    simp [hne]
  · rw [efst]
    show lookupA (h.clients.map (bcastUpdate cA.id pl)) cA.id = _
    rw [lookupA_bcastUpdate, hA]
    simp

/-- Witness for C7's amended theorem at the concrete scenario input. -/
theorem c7_payload_delivered_no_echo_witness :
    lookupA (HubState.mk [(1, ⟨1, 10, newSendQueue⟩), (2, ⟨2, 20, newSendQueue⟩)]
        [(10, 1), (20, 2)]).clients (Client.mk 1 10 newSendQueue).id =
      some (Client.mk 1 10 newSendQueue) ∧
    lookupA (HubState.mk [(1, ⟨1, 10, newSendQueue⟩), (2, ⟨2, 20, newSendQueue⟩)]
        [(10, 1), (20, 2)]).clients 2 = some (Client.mk 2 20 newSendQueue) ∧
    lookupA (broadcastMessage
        (HubState.mk [(1, ⟨1, 10, newSendQueue⟩), (2, ⟨2, 20, newSendQueue⟩)]
          [(10, 1), (20, 2)])
        (Broadcast.mk (Client.mk 1 10 newSendQueue).id payloadHi)).1.clients 2 =
      some (enqSend (Client.mk 2 20 newSendQueue) payloadHi) :=
  ⟨by decide, by decide,
   (c7_payload_delivered_no_echo _ (Client.mk 1 10 newSendQueue) 2
     (Client.mk 2 20 newSendQueue) payloadHi (by decide) (by decide)
     (by decide) (by decide)).2.2.1⟩

/-! ### Claim C8 -/

/-- The three recognized inbound tags of the source's dispatch switch. -/
def recognizedTags : List String := ["message", "typing", "read_receipt"]

/-- Claim C8, formalised as stated: every successfully decoded envelope
with a recognized tag is dispatched to the hub as a Broadcast tagged with
the originating connection's ID. -/
def c8DispatchClaim : Prop :=
  ∀ (c : Client) (m : Message), m.type ∈ recognizedTags →
    ∃ b ∈ (processMessage c (some m)).toHub, b.clientID = c.id

/-- Counterexample to claim C8: a `read_receipt` envelope has a
recognized tag, but `handleReadReceipt` is an empty stub — nothing at all
is dispatched to the hub. -/
theorem c8_counterexample : ¬ c8DispatchClaim := by
  intro hcl
  obtain ⟨b, hb, _⟩ := hcl (Client.mk 1 10 newSendQueue)
    (Message.mk "read_receipt" "p") (by decide)
  have hnil : (processMessage (Client.mk 1 10 newSendQueue)
      (some (Message.mk "read_receipt" "p"))).toHub = ([] : List Broadcast) := by
    decide
  rw [hnil] at hb
  simp at hb

/-- Claim C8, amended: chat-message and typing-indicator envelopes are
dispatched to the hub as a single Broadcast carrying the envelope's
payload, tagged with the originating connection's ID; a read-receipt
envelope is accepted but dispatches nothing (its handler is a stub). -/
theorem c8_dispatch_by_tag (c : Client) (m : Message) :
    ((m.type = "message" ∨ m.type = "typing") →
      processMessage c (some m) = PumpEffects.mk [Broadcast.mk c.id m.payload] []) ∧
    (m.type = "read_receipt" → processMessage c (some m) = PumpEffects.mk [] []) := by
  constructor
  · rintro (ht | ht) <;>
      simp [processMessage, ht, handleChatMessage, handleTypingEvent]
  · intro ht
    simp [processMessage, ht, handleReadReceipt]

/-- Witness for C8's amended theorem at concrete inputs: a typing
envelope is dispatched, a read-receipt envelope is not. -/
theorem c8_dispatch_by_tag_witness :
    processMessage (Client.mk 3 30 newSendQueue) (some (Message.mk "typing" "tp")) =
      PumpEffects.mk [Broadcast.mk 3 "tp"] [] ∧
    processMessage (Client.mk 3 30 newSendQueue)
        (some (Message.mk "read_receipt" "rr")) =
      PumpEffects.mk [] [] :=
  ⟨(c8_dispatch_by_tag (Client.mk 3 30 newSendQueue) (Message.mk "typing" "tp")).1
     (Or.inr rfl),
   (c8_dispatch_by_tag (Client.mk 3 30 newSendQueue)
     (Message.mk "read_receipt" "rr")).2 rfl⟩

/-! ### Claim C2 -/

/-- Claim C2 evaluated at its failing input.  Hub with connections
1 (origin), 2 (queue full: capacity 1 holding "x"), 3 (queue empty);
origin 1 broadcasts "m".  The fan-out loop closes connection 2's queue
and then blocks forever sending on the hub's own Unregister channel
(`BHalt.deadlockAt 2`): connection 2 is never removed from either
membership structure, and connection 3 — iterated after 2 — never
receives the envelope, contradicting "that connection is unregistered"
and "every other recipient still receives".  Additionally, `sendError`'s
enqueue of an error envelope is a plain channel send that blocks when the
queue is full instead of being non-blocking. -/
theorem c2_overflow_deadlocks_hub :
    broadcastMessage
        (HubState.mk [(1, ⟨1, 10, newSendQueue⟩), (2, ⟨2, 20, ⟨1, ["x"], false⟩⟩),
                      (3, ⟨3, 30, newSendQueue⟩)]
          [(10, 1), (20, 2), (30, 3)])
        (Broadcast.mk 1 "m") =
      (HubState.mk [(1, ⟨1, 10, newSendQueue⟩), (2, ⟨2, 20, ⟨1, ["x"], true⟩⟩),
                    (3, ⟨3, 30, newSendQueue⟩)]
         [(10, 1), (20, 2), (30, 3)],
       some (BHalt.deadlockAt 2)) ∧
    sendError ⟨1, 10, ⟨256, List.replicate 256 "f", false⟩⟩ "err" =
      SendOutcome.blocksFull := by
  decide
